import Mathlib

/-
  Shallow embedding of the BusTub buffer-pool subsystem:
  `src/buffer/lru_k_replacer.cpp` and `src/buffer/buffer_pool_manager.cpp`.

  Conventions of the embedding:
  * `size_t` / counters become `Nat`; `page_id_t` (a signed 32-bit int) becomes
    `Int` with the sentinel `INVALID_PAGE_ID = -1`.  None of the claims exercise
    integer overflow, and every decrement in the source happens at a provably
    positive counter in the states the theorems quantify over, so plain `Nat`
    arithmetic is used.
  * The pools `less_k_` / `more_k_` hold `LRUKNode*` pointers in C++; every
    node is owned by `node_store_` (keyed by `fid_`, and `node->fid_` equals
    its key from creation on).  We therefore keep the node data in the store
    and let the pools hold frame ids; a pool entry whose id is missing from
    the store corresponds to a dangling pointer in C++ (unreachable in
    well-formed states), and the model simply skips such entries.
  * C++ exceptions (`throw`) become `Except.error`.  C++ code that throws can
    leave earlier mutations behind; no claim observes state after a throw, so
    the error branch simply carries no state.
-/

namespace BusTub

/-- Association-list lookup used to model `std::unordered_map::find`. -/
def assocLookup {α β : Type} [DecidableEq α] : List (α × β) → α → Option β
  | [], _ => none
  | p :: rest, k => if p.1 = k then some p.2 else assocLookup rest k

/-- Association-list insert-or-assign used to model `map[k] = v`. -/
def assocInsert {α β : Type} [DecidableEq α] : List (α × β) → α → β → List (α × β)
  | [], k, v => [(k, v)]
  | p :: rest, k, v => if p.1 = k then (k, v) :: rest else p :: assocInsert rest k v

/-- Association-list erase used to model `map.erase(k)`. -/
def assocErase {α β : Type} [DecidableEq α] (l : List (α × β)) (k : α) : List (α × β) :=
  l.filter (fun p => decide (p.1 ≠ k))

/-- Positional read used to model indexing into the `pages_` array. -/
def listGet {α : Type} : List α → Nat → Option α
  | [], _ => none
  | a :: _, 0 => some a
  | _ :: rest, n + 1 => listGet rest n

/-- Positional write used to model assignment into the `pages_` array. -/
def listSet {α : Type} : List α → Nat → α → List α
  | [], _, _ => []
  | _ :: rest, 0, a => a :: rest
  | x :: rest, n + 1, a => x :: listSet rest n a

/-- `std::list::remove(node)`: drop every occurrence of the pointer
(here: the frame id) from a pool. -/
def poolRemove (l : List Nat) (f : Nat) : List Nat :=
  l.filter (fun g => decide (g ≠ f))

/-- One `LRUKNode`: frame id, access-timestamp history (oldest first, as
`emplace_back` appends and `pop_front` drops the oldest), evictability flag.
The header `lru_k_replacer.h` is not in the sources; the flag's initial value
is modelled from the spec ("create it in the cold pool with
`is_evictable = false`"). -/
structure LRUKNode where
  fid_ : Nat
  history_ : List Nat
  is_evictable_ : Bool
deriving DecidableEq

/-- State of `LRUKReplacer`: the node map, the cold pool `less_k_`, the warm
pool `more_k_`, the evictable count `curr_size_`, the logical clock
`current_timestamp_`, and the constructor parameters. -/
structure LRUKReplacer where
  node_store_ : List (Nat × LRUKNode)
  less_k_ : List Nat
  more_k_ : List Nat
  curr_size_ : Nat
  current_timestamp_ : Nat
  replacer_size_ : Nat
  k_ : Nat
deriving DecidableEq

/-- `LRUKReplacer::LRUKReplacer(num_frames, k)`. -/
def LRUKReplacer.init (num_frames k : Nat) : LRUKReplacer :=
  { node_store_ := [], less_k_ := [], more_k_ := [], curr_size_ := 0,
    current_timestamp_ := 0, replacer_size_ := num_frames, k_ := k }

/-- The scan `for (auto node : pool) if (node->is_evictable_) ...` in
`LRUKReplacer::Evict`: first pool entry whose node is evictable. -/
def evictFrom (store : List (Nat × LRUKNode)) : List Nat → Option Nat
  | [] => none
  | f :: rest =>
    match assocLookup store f with
    | some n => if n.is_evictable_ then some f else evictFrom store rest
    | none => evictFrom store rest

/-- `LRUKReplacer::Evict`: scan the cold pool, then the warm pool, for the
first evictable node; unlink it from its pool, erase it from `node_store_`,
and decrement `curr_size_`.  Returns the new state and the evicted frame id
(`none` models returning `false` without writing `*frame_id`). -/
def LRUKReplacer.Evict (r : LRUKReplacer) : LRUKReplacer × Option Nat :=
  match evictFrom r.node_store_ r.less_k_ with
  | some f =>
    ({ r with less_k_ := poolRemove r.less_k_ f,
              node_store_ := assocErase r.node_store_ f,
              curr_size_ := r.curr_size_ - 1 }, some f)
  | none =>
    match evictFrom r.node_store_ r.more_k_ with
    | some f =>
      ({ r with more_k_ := poolRemove r.more_k_ f,
                node_store_ := assocErase r.node_store_ f,
                curr_size_ := r.curr_size_ - 1 }, some f)
    | none => (r, none)

/-- The scan-to-position insertion of `RecordAccess`: walk `more_k_` and
insert `f` before the first node whose `history_.front()` exceeds `kth`,
else append.  (`history_.front()` of a warm node is never empty; `headD 0`
is the total rendering of `front()`.) -/
def insertSorted (store : List (Nat × LRUKNode)) (kth : Nat) (f : Nat) :
    List Nat → List Nat
  | [] => [f]
  | g :: rest =>
    match assocLookup store g with
    | some ng =>
      if kth < ng.history_.headD 0 then f :: g :: rest
      else g :: insertSorted store kth f rest
    | none => g :: insertSorted store kth f rest

/-- `LRUKReplacer::RecordAccess` (the `access_type` parameter is unused by the
source).  Throws on `frame_id > replacer_size_` (note: the source uses `>`, not `>=`),
bumps the clock, appends the timestamp; a new node goes to the cold pool; an
existing node is promoted / re-positioned in the warm pool once its history
reaches `k_`. -/
def LRUKReplacer.RecordAccess (r : LRUKReplacer) (frame_id : Nat) :
    Except String LRUKReplacer :=
  if r.replacer_size_ < frame_id then .error "unexpected fram_id"
  else
    let ts := r.current_timestamp_ + 1
    let r := { r with current_timestamp_ := ts }
    match assocLookup r.node_store_ frame_id with
    | none =>
      let node : LRUKNode := { fid_ := frame_id, history_ := [ts], is_evictable_ := false }
      .ok { r with node_store_ := assocInsert r.node_store_ frame_id node,
                   less_k_ := r.less_k_ ++ [frame_id] }
    | some node0 =>
      let node := { node0 with history_ := node0.history_ ++ [ts] }
      let history_size := node.history_.length
      if history_size < r.k_ then
        .ok { r with node_store_ := assocInsert r.node_store_ frame_id node }
      else if history_size = r.k_ then
        let r := { r with less_k_ := poolRemove r.less_k_ frame_id,
                          node_store_ := assocInsert r.node_store_ frame_id node }
        .ok { r with more_k_ := insertSorted r.node_store_ (node.history_.headD 0) frame_id r.more_k_ }
      else
        let node := { node with history_ := node.history_.tail }
        let r := { r with more_k_ := poolRemove r.more_k_ frame_id,
                          node_store_ := assocInsert r.node_store_ frame_id node }
        .ok { r with more_k_ := insertSorted r.node_store_ (node.history_.headD 0) frame_id r.more_k_ }

/-- `LRUKReplacer::SetEvictable`: throws on `frame_id > replacer_size_`,
no-op on untracked ids, adjusts `curr_size_` by one only on an actual
transition of the flag. -/
def LRUKReplacer.SetEvictable (r : LRUKReplacer) (frame_id : Nat)
    (set_evictable : Bool) : Except String LRUKReplacer :=
  if r.replacer_size_ < frame_id then .error "unexpected fram_id"
  else
    match assocLookup r.node_store_ frame_id with
    | none => .ok r
    | some node =>
      if node.is_evictable_ then
        if set_evictable then .ok r
        else .ok { r with
          node_store_ := assocInsert r.node_store_ frame_id { node with is_evictable_ := false },
          curr_size_ := r.curr_size_ - 1 }
      else
        if !set_evictable then .ok r
        else .ok { r with
          node_store_ := assocInsert r.node_store_ frame_id { node with is_evictable_ := true },
          curr_size_ := r.curr_size_ + 1 }

/-- `LRUKReplacer::Remove`: throws on `frame_id > replacer_size_`, no-op on
untracked ids, throws on a non-evictable node; otherwise unlinks the node from
whichever pool its history length selects and erases it from the store.
The source performs no `curr_size_` update here. -/
def LRUKReplacer.Remove (r : LRUKReplacer) (frame_id : Nat) :
    Except String LRUKReplacer :=
  if r.replacer_size_ < frame_id then .error "unexpected fram_id"
  else
    match assocLookup r.node_store_ frame_id with
    | none => .ok r
    | some node =>
      if !node.is_evictable_ then .error "Remove is called on a non-evictable frame"
      else if node.history_.length < r.k_ then
        .ok { r with less_k_ := poolRemove r.less_k_ frame_id,
                     node_store_ := assocErase r.node_store_ frame_id }
      else
        .ok { r with more_k_ := poolRemove r.more_k_ frame_id,
                     node_store_ := assocErase r.node_store_ frame_id }

/-- `LRUKReplacer::Size`. -/
def LRUKReplacer.Size (r : LRUKReplacer) : Nat := r.curr_size_

/-- One public replacer operation, for reasoning about call sequences. -/
inductive ReplacerOp where
  | record (fid : Nat)
  | setEv (fid : Nat) (b : Bool)
  | evict
  | remove (fid : Nat)
deriving DecidableEq

/-- Run one replacer operation (the result of `Evict` is discarded). -/
def runRep (r : LRUKReplacer) : ReplacerOp → Except String LRUKReplacer
  | .record fid => r.RecordAccess fid
  | .setEv fid b => r.SetEvictable fid b
  | .evict => .ok (r.Evict).1
  | .remove fid => r.Remove fid

/-- Run a sequence of replacer operations. -/
def runReps (r : LRUKReplacer) : List ReplacerOp → Except String LRUKReplacer
  | [] => .ok r
  | op :: rest => do runReps (← runRep r op) rest

/-- Evictability of a frame id as recorded in the store (`false` for a
dangling / untracked id, which `Evict`'s scan also never selects). -/
def evictableIn (store : List (Nat × LRUKNode)) (f : Nat) : Bool :=
  match assocLookup store f with
  | some n => n.is_evictable_
  | none => false

/-- Front-of-history timestamp of a tracked frame.  For a cold node this is
its first (insertion-time) access; for a warm node, whose history is pruned to
its last `k_` accesses, it is the K-th most recent access timestamp. -/
def tsOf (store : List (Nat × LRUKNode)) (f : Nat) : Nat :=
  match assocLookup store f with
  | some n => n.history_.headD 0
  | none => 0

/-- Number of tracked nodes whose `is_evictable_` flag is set. -/
def countEvictable (store : List (Nat × LRUKNode)) : Nat :=
  store.countP (fun p => p.2.is_evictable_)

/-- Modelled from the spec: the sentinel page id (`INVALID_PAGE_ID`, a signed
integer; the header defining it is not among the sources). -/
def INVALID_PAGE_ID : Int := -1

/-- Modelled from the spec: the compile-time page size constant. -/
def PAGE_SIZE : Nat := 4096

/-- One frame of the pool (`class Page`; its header is not among the sources,
fields modelled from the spec's frame description): byte buffer, resident
page id, pin count, dirty flag.  The per-frame latch is concurrency-only and
is not represented. -/
structure Page where
  data : List Nat
  page_id_ : Int
  pin_count_ : Nat
  is_dirty_ : Bool
deriving DecidableEq

/-- Modelled from the spec: a default-constructed / freed frame
(`page_id == INVALID`, `pin_count == 0`, `!is_dirty`, zeroed buffer). -/
def freePage : Page :=
  { data := List.replicate PAGE_SIZE 0, page_id_ := INVALID_PAGE_ID,
    pin_count_ := 0, is_dirty_ := false }

/-- State of `BufferPoolManager` plus its external collaborators: `disk_` is
the disk manager's page store, `writes_` the log of `WritePage` calls and
`deallocs_` the log of advisory `DeallocatePage` calls (disk manager modelled
from the spec's §6 contract; it is not among the sources). -/
structure BufferPoolManager where
  pool_size_ : Nat
  pages_ : List Page
  page_table_ : List (Int × Nat)
  free_list_ : List Nat
  replacer_ : LRUKReplacer
  next_page_id_ : Int
  disk_ : List (Int × List Nat)
  writes_ : List Int
  deallocs_ : List Int
deriving DecidableEq

/-- `BufferPoolManager::BufferPoolManager(pool_size, disk, replacer_k, log)`:
fresh frames, every index on the free list, empty page table. -/
def BufferPoolManager.init (pool_size replacer_k : Nat)
    (disk : List (Int × List Nat)) : BufferPoolManager :=
  { pool_size_ := pool_size,
    pages_ := List.replicate pool_size freePage,
    page_table_ := [],
    free_list_ := List.range pool_size,
    replacer_ := LRUKReplacer.init pool_size replacer_k,
    next_page_id_ := 0,
    disk_ := disk, writes_ := [], deallocs_ := [] }

/-- Modelled from the spec: `DiskManager::ReadPage` fills the buffer from the
page store (zeroes for a never-written page). -/
def diskRead (disk : List (Int × List Nat)) (pid : Int) : List Nat :=
  match assocLookup disk pid with
  | some d => d
  | none => List.replicate PAGE_SIZE 0

/-- `BufferPoolManager::FlushPage`: fatal on the INVALID id, `false` when not
resident, else `WritePage` the frame's buffer and clear its dirty flag. -/
def BufferPoolManager.FlushPage (b : BufferPoolManager) (page_id : Int) :
    Except String (BufferPoolManager × Bool) :=
  if page_id = INVALID_PAGE_ID then .error "invalid page ID"
  else
    match assocLookup b.page_table_ page_id with
    | none => .ok (b, false)
    | some fid =>
      match listGet b.pages_ fid with
      | none => .error "frame index out of range"
      | some page =>
        .ok ({ b with disk_ := assocInsert b.disk_ page_id page.data,
                      writes_ := b.writes_ ++ [page_id],
                      pages_ := listSet b.pages_ fid { page with is_dirty_ := false } }, true)

/-- Modelled from the spec: the private helper `GetFreeFrame` (declared in the
missing header).  Pop the free list if possible; otherwise evict, flushing the
victim's page first when dirty, and drop the victim's page-table entry.
Reaching a state where neither path yields a frame is a logic error per the
spec. -/
def BufferPoolManager.GetFreeFrame (b : BufferPoolManager) :
    Except String (BufferPoolManager × Nat) :=
  match b.free_list_ with
  | fid :: rest => .ok ({ b with free_list_ := rest }, fid)
  | [] =>
    match b.replacer_.Evict with
    | (rep, some fid) =>
      let b := { b with replacer_ := rep }
      match listGet b.pages_ fid with
      | none => .error "frame index out of range"
      | some page => do
        let b ← if page.is_dirty_
          then (b.FlushPage page.page_id_).map (fun p => p.1)
          else pure b
        .ok ({ b with page_table_ := assocErase b.page_table_ page.page_id_ }, fid)
    | (_, none) => .error "logic error: no free and no evictable frame"

/-- Modelled from the spec: the private helper `InitNewPage` (missing header).
Install the page-table entry and reset the frame for `page_id` with a zeroed
buffer, pin count 0 and a clear dirty flag (the subsequent `Pinpage` takes the
pin count to 1). -/
def BufferPoolManager.InitNewPage (b : BufferPoolManager) (page_id : Int)
    (fid : Nat) : BufferPoolManager :=
  { b with page_table_ := assocInsert b.page_table_ page_id fid,
           pages_ := listSet b.pages_ fid
             { data := List.replicate PAGE_SIZE 0, page_id_ := page_id,
               pin_count_ := 0, is_dirty_ := false } }

/-- Modelled from the spec: the private helper `Pinpage` (missing header).
Increment the resident frame's pin count, record the access in the replacer
and mark the frame non-evictable (§4.4 protocol table). -/
def BufferPoolManager.Pinpage (b : BufferPoolManager) (page_id : Int) :
    Except String BufferPoolManager :=
  match assocLookup b.page_table_ page_id with
  | none => .error "Pinpage on a non-resident page"
  | some fid =>
    match listGet b.pages_ fid with
    | none => .error "frame index out of range"
    | some page => do
      let b := { b with pages_ := (listSet b.pages_ fid
                   { page with pin_count_ := page.pin_count_ + 1 }) }
      let rep ← b.replacer_.RecordAccess fid
      let rep ← rep.SetEvictable fid false
      .ok { b with replacer_ := rep }

/-- `BufferPoolManager::NewPage`: `none` models returning `nullptr` with
`*page_id = INVALID`; `some pid` models returning the frame for the freshly
allocated page id (`AllocatePage` is `next_page_id_++`). -/
def BufferPoolManager.NewPage (b : BufferPoolManager) :
    Except String (BufferPoolManager × Option Int) :=
  if b.free_list_.isEmpty ∧ b.replacer_.Size = 0 then .ok (b, none)
  else do
    let (b, fid) ← b.GetFreeFrame
    let pid := b.next_page_id_
    let b := { b with next_page_id_ := pid + 1 }
    let b := b.InitNewPage pid fid
    let b ← b.Pinpage pid
    .ok (b, some pid)

/-- `BufferPoolManager::FetchPage`: on a hit, pin and return; on a miss with
no free and no evictable frame, return `false` (a null `Page*`); otherwise
materialize the page in a free frame and read its bytes from disk.  The
returned `Bool` is whether a non-null frame was produced. -/
def BufferPoolManager.FetchPage (b : BufferPoolManager) (page_id : Int) :
    Except String (BufferPoolManager × Bool) :=
  match assocLookup b.page_table_ page_id with
  | some _ => do
    let b ← b.Pinpage page_id
    .ok (b, true)
  | none =>
    if b.free_list_.isEmpty ∧ b.replacer_.Size = 0 then .ok (b, false)
    else do
      let (b, fid) ← b.GetFreeFrame
      let b := b.InitNewPage page_id fid
      let b ← b.Pinpage page_id
      match listGet b.pages_ fid with
      | none => .error "frame index out of range"
      | some page =>
        .ok ({ b with pages_ := (listSet b.pages_ fid
                 { page with data := diskRead b.disk_ page_id }) }, true)

/-- `BufferPoolManager::UnpinPage` (the `access_type` parameter is unused by
the source): `false` when not resident or already unpinned; else decrement the
pin count, mark the frame evictable when it reaches zero, and OR the dirty
flag in. -/
def BufferPoolManager.UnpinPage (b : BufferPoolManager) (page_id : Int)
    (is_dirty : Bool) : Except String (BufferPoolManager × Bool) :=
  match assocLookup b.page_table_ page_id with
  | none => .ok (b, false)
  | some fid =>
    match listGet b.pages_ fid with
    | none => .error "frame index out of range"
    | some page =>
      if page.pin_count_ = 0 then .ok (b, false)
      else do
        let newPin := page.pin_count_ - 1
        let rep ← if newPin = 0
          then b.replacer_.SetEvictable fid true
          else pure b.replacer_
        .ok ({ b with replacer_ := rep,
                      pages_ := (listSet b.pages_ fid
                        { page with pin_count_ := newPin,
                                    is_dirty_ := page.is_dirty_ || is_dirty }) }, true)

/-- `BufferPoolManager::DeletePage`: `true` when not resident, `false` when
pinned; else erase the page-table entry, `Remove` the frame from the replacer,
push the frame on the free list, reset the frame to the free state and issue
the advisory `DeallocatePage`. -/
def BufferPoolManager.DeletePage (b : BufferPoolManager) (page_id : Int) :
    Except String (BufferPoolManager × Bool) :=
  match assocLookup b.page_table_ page_id with
  | none => .ok (b, true)
  | some fid =>
    match listGet b.pages_ fid with
    | none => .error "frame index out of range"
    | some page =>
      if 0 < page.pin_count_ then .ok (b, false)
      else do
        let rep ← b.replacer_.Remove fid
        .ok ({ b with page_table_ := assocErase b.page_table_ page_id,
                      replacer_ := rep,
                      free_list_ := b.free_list_ ++ [fid],
                      pages_ := listSet b.pages_ fid freePage,
                      deallocs_ := b.deallocs_ ++ [page_id] }, true)

/-- One public manager operation, for reasoning about call sequences. -/
inductive BPMOp where
  | newPage
  | fetchPage (pid : Int)
  | unpinPage (pid : Int) (d : Bool)
  | deletePage (pid : Int)
  | flushPage (pid : Int)
deriving DecidableEq

/-- Run one manager operation, discarding the caller-visible result. -/
def runBPM (b : BufferPoolManager) : BPMOp → Except String BufferPoolManager
  | .newPage => (b.NewPage).map (fun p => p.1)
  | .fetchPage pid => (b.FetchPage pid).map (fun p => p.1)
  | .unpinPage pid d => (b.UnpinPage pid d).map (fun p => p.1)
  | .deletePage pid => (b.DeletePage pid).map (fun p => p.1)
  | .flushPage pid => (b.FlushPage pid).map (fun p => p.1)

/-- Run a sequence of manager operations. -/
def runBPMs (b : BufferPoolManager) : List BPMOp → Except String BufferPoolManager
  | [] => .ok b
  | op :: rest => do runBPMs (← runBPM b op) rest

/-- A tracked node for this id, if any, is evictable (vacuously true for an
untracked id); the precondition under which `Remove` cannot throw. -/
def evictableIfTracked (store : List (Nat × LRUKNode)) (f : Nat) : Bool :=
  match assocLookup store f with
  | some n => n.is_evictable_
  | none => true

theorem assocLookup_mem {α β : Type} [DecidableEq α] {l : List (α × β)} {k : α}
    {v : β} (h : assocLookup l k = some v) : (k, v) ∈ l := by
  induction l with
  | nil => simp [assocLookup] at h
  | cons p rest ih =>
    obtain ⟨a, w⟩ := p
    by_cases hp : a = k
    · subst hp
      simp [assocLookup] at h
      simp [h]
    · simp [assocLookup, hp] at h
      exact List.mem_cons_of_mem _ (ih h)

theorem assocLookup_insert_self {α β : Type} [DecidableEq α]
    (l : List (α × β)) (k : α) (v : β) :
    assocLookup (assocInsert l k v) k = some v := by
  induction l with
  | nil => simp [assocInsert, assocLookup]
  | cons p rest ih =>
    by_cases hp : p.1 = k
    · simp [assocInsert, hp, assocLookup]
    · simp [assocInsert, hp, assocLookup, ih]

theorem assocLookup_insert_ne {α β : Type} [DecidableEq α]
    (l : List (α × β)) (k : α) (v : β) (k' : α) (h : k' ≠ k) :
    assocLookup (assocInsert l k v) k' = assocLookup l k' := by
  induction l with
  | nil => simp [assocInsert, assocLookup, Ne.symm h]
  | cons p rest ih =>
    by_cases hp : p.1 = k
    · have hp' : ¬ p.1 = k' := by rw [hp]; exact fun hc => h hc.symm
      simp [assocInsert, hp, assocLookup, hp', Ne.symm h]
    · simp [assocInsert, hp, assocLookup, ih]

theorem assocLookup_erase_self {α β : Type} [DecidableEq α]
    (l : List (α × β)) (k : α) :
    assocLookup (assocErase l k) k = none := by
  induction l with
  | nil => simp [assocErase, assocLookup]
  | cons p rest ih =>
    by_cases hp : p.1 = k
    · simpa [assocErase, hp] using ih
    · simpa [assocErase, assocLookup, hp] using ih

theorem assocLookup_erase_ne {α β : Type} [DecidableEq α]
    (l : List (α × β)) (k k' : α) (h : k' ≠ k) :
    assocLookup (assocErase l k) k' = assocLookup l k' := by
  induction l with
  | nil => rfl
  | cons p rest ih =>
    by_cases hp : p.1 = k
    · rw [show assocErase (p :: rest) k = assocErase rest k from by
        simp [assocErase, List.filter_cons, hp]]
      rw [ih]
      have hp' : ¬ p.1 = k' := by rw [hp]; exact fun hc => h hc.symm
      simp [assocLookup, hp']
    · rw [show assocErase (p :: rest) k = p :: assocErase rest k from by
        simp [assocErase, List.filter_cons, hp]]
      simp [assocLookup, ih]

theorem listGet_lt_length {α : Type} : ∀ {l : List α} {i : Nat} {a : α},
    listGet l i = some a → i < l.length := by
  intro l
  induction l with
  | nil => intro i a h; simp [listGet] at h
  | cons x rest ih =>
    intro i a h
    cases i with
    | zero => simp
    | succ n =>
      simp [listGet] at h
      exact Nat.succ_lt_succ (ih h)

theorem listGet_set_self {α : Type} : ∀ (l : List α) (i : Nat) (a : α),
    i < l.length → listGet (listSet l i a) i = some a := by
  intro l
  induction l with
  | nil => intro i a h; simp at h
  | cons x rest ih =>
    intro i a h
    cases i with
    | zero => simp [listSet, listGet]
    | succ n =>
      simp [listSet, listGet]
      exact ih n a (by simpa using h)

theorem listGet_set_ne {α : Type} : ∀ (l : List α) (i : Nat) (a : α) (j : Nat),
    j ≠ i → listGet (listSet l i a) j = listGet l j := by
  intro l
  induction l with
  | nil => intro i a j _; simp [listSet]
  | cons x rest ih =>
    intro i a j hj
    cases i with
    | zero =>
      cases j with
      | zero => exact absurd rfl hj
      | succ m => simp [listSet, listGet]
    | succ n =>
      cases j with
      | zero => simp [listSet, listGet]
      | succ m =>
        simp [listSet, listGet]
        exact ih n a m (fun hc => hj (by rw [hc]))

theorem mem_poolRemove {l : List Nat} {f g : Nat} :
    g ∈ poolRemove l f ↔ g ∈ l ∧ g ≠ f := by
  simp [poolRemove]

theorem evictFrom_some_spec {s : List (Nat × LRUKNode)} :
    ∀ {l : List Nat} {f : Nat}, evictFrom s l = some f →
      f ∈ l ∧ evictableIn s f = true := by
  intro l
  induction l with
  | nil => intro f h; simp [evictFrom] at h
  | cons g rest ih =>
    intro f h
    unfold evictFrom at h
    cases hg : assocLookup s g with
    | none =>
      rw [hg] at h
      have := ih h
      exact ⟨List.mem_cons_of_mem _ this.1, this.2⟩
    | some n =>
      rw [hg] at h
      by_cases he : n.is_evictable_ = true
      · simp [he] at h
        subst h
        exact ⟨List.mem_cons_self _ _, by simp [evictableIn, hg, he]⟩
      · simp [he] at h
        have := ih h
        exact ⟨List.mem_cons_of_mem _ this.1, this.2⟩

theorem evictFrom_none_spec {s : List (Nat × LRUKNode)} :
    ∀ {l : List Nat}, evictFrom s l = none →
      ∀ g ∈ l, evictableIn s g = false := by
  intro l
  induction l with
  | nil => intro _ g hg; simp at hg
  | cons x rest ih =>
    intro h g hg
    unfold evictFrom at h
    cases hx : assocLookup s x with
    | none =>
      rw [hx] at h
      rcases List.mem_cons.mp hg with hg | hg
      · subst hg; simp [evictableIn, hx]
      · exact ih h g hg
    | some n =>
      rw [hx] at h
      by_cases he : n.is_evictable_ = true
      · simp [he] at h
      · simp [he] at h
        rcases List.mem_cons.mp hg with hg | hg
        · subst hg
          simp [evictableIn, hx]
          exact Bool.not_eq_true _ ▸ he
        · exact ih h g hg

theorem evictFrom_min {s : List (Nat × LRUKNode)} {R : Nat → Nat → Prop} :
    ∀ {l : List Nat} {f : Nat}, l.Pairwise R → evictFrom s l = some f →
      ∀ g ∈ l, evictableIn s g = true → g = f ∨ R f g := by
  intro l
  induction l with
  | nil => intro f _ h; simp [evictFrom] at h
  | cons x rest ih =>
    intro f hpw h g hg hev
    unfold evictFrom at h
    have hxR : ∀ y ∈ rest, R x y := fun y hy => (List.pairwise_cons.mp hpw).1 y hy
    have hpw' : rest.Pairwise R := (List.pairwise_cons.mp hpw).2
    cases hx : assocLookup s x with
    | none =>
      rw [hx] at h
      rcases List.mem_cons.mp hg with hg | hg
      · subst hg
        simp [evictableIn, hx] at hev
      · exact ih hpw' h g hg hev
    | some n =>
      rw [hx] at h
      by_cases he : n.is_evictable_ = true
      · simp [he] at h
        subst h
        rcases List.mem_cons.mp hg with hg | hg
        · exact Or.inl hg
        · exact Or.inr (hxR g hg)
      · simp [he] at h
        rcases List.mem_cons.mp hg with hg | hg
        · subst hg
          simp [evictableIn, hx] at hev
          exact absurd hev he
        · exact ih hpw' h g hg hev

theorem countEvictable_pos {s : List (Nat × LRUKNode)} {f : Nat} {n : LRUKNode}
    (h : assocLookup s f = some n) (he : n.is_evictable_ = true) :
    0 < countEvictable s := by
  have hm : (f, n) ∈ s := assocLookup_mem h
  unfold countEvictable
  exact List.countP_pos_iff.mpr ⟨(f, n), hm, by simpa using he⟩

theorem Remove_no_throw (r : LRUKReplacer) (fid : Nat)
    (hb : fid ≤ r.replacer_size_)
    (hev : evictableIfTracked r.node_store_ fid = true) :
    ∃ r', r.Remove fid = .ok r' ∧ assocLookup r'.node_store_ fid = none := by
  unfold LRUKReplacer.Remove
  rw [if_neg (by omega)]
  cases hl : assocLookup r.node_store_ fid with
  | none => exact ⟨r, rfl, hl⟩
  | some node =>
    have hne : node.is_evictable_ = true := by
      unfold evictableIfTracked at hev
      rw [hl] at hev
      exact hev
    by_cases hk : node.history_.length < r.k_
    · refine ⟨{ r with less_k_ := poolRemove r.less_k_ fid, node_store_ := assocErase r.node_store_ fid }, ?_, assocLookup_erase_self _ _⟩
      simp [hne, hk]
    · refine ⟨{ r with more_k_ := poolRemove r.more_k_ fid, node_store_ := assocErase r.node_store_ fid }, ?_, assocLookup_erase_self _ _⟩
      simp [hne, hk]

theorem SetEvictable_true_ok (r : LRUKReplacer) (fid : Nat) (n : LRUKNode)
    (hb : fid ≤ r.replacer_size_)
    (hn : assocLookup r.node_store_ fid = some n) :
    ∃ r', r.SetEvictable fid true = .ok r' ∧
      evictableIn r'.node_store_ fid = true := by
  unfold LRUKReplacer.SetEvictable
  rw [if_neg (by omega), hn]
  by_cases he : n.is_evictable_ = true
  · exact ⟨r, by simp [he], by simp [evictableIn, hn, he]⟩
  · rw [Bool.not_eq_true] at he
    refine ⟨{ r with node_store_ := assocInsert r.node_store_ fid { n with is_evictable_ := true }, curr_size_ := r.curr_size_ + 1 }, by simp [he], ?_⟩
    simp [evictableIn, assocLookup_insert_self]

/-- C1: the claim says every replacer operation called with a `frame_id`
outside `[0, pool_size)` fails, in particular `frame_id = pool_size`.  The
source bounds-checks with `>` rather than `>=`, so with `pool_size = 1` the
one-past-the-end id `1` is accepted by `RecordAccess`, `SetEvictable` and
`Remove` alike (while `2` is rejected, confirming the check is off by one). -/
theorem claim1_pool_size_id_accepted :
    ((LRUKReplacer.init 1 2).RecordAccess 1).isOk = true ∧
    ((LRUKReplacer.init 1 2).SetEvictable 1 true).isOk = true ∧
    ((LRUKReplacer.init 1 2).Remove 1).isOk = true ∧
    ((LRUKReplacer.init 1 2).RecordAccess 2).isOk = false := by
  decide

/-- C2: the claim says `Size()` always equals the number of tracked evictable
nodes, and that `Remove` on a tracked evictable frame decreases it by one.
Evaluating the source on `RecordAccess 0; SetEvictable 0 true; Remove 0`
(`pool_size = 2`, `k = 2`): the node store ends empty, with zero evictable
nodes, yet `Size()` is still `1` — `Remove` omits the `curr_size_` decrement. -/
theorem claim2_remove_leaves_size_stale :
    (runReps (LRUKReplacer.init 2 2)
        [.record 0, .setEv 0 true, .remove 0]).toOption.map
      (fun r => (r.Size, countEvictable r.node_store_, r.node_store_)) =
      some (1, 0, []) := by
  decide

/-- C3: the claim says for every `K ≥ 1` each tracked frame lives in exactly
one pool.  Evaluating the source with `K = 1` and two accesses to frame `0`:
the second access inserts the node into the warm pool without ever taking it
out of the cold pool (`history_size == k_` is never true when `k_ = 1`), so
frame `0` ends up a member of both pools. -/
theorem claim3_k1_frame_in_both_pools :
    (runReps (LRUKReplacer.init 2 1) [.record 0, .record 0]).toOption.map
      (fun r => (r.less_k_, r.more_k_)) = some ([0], [0]) := by
  decide

/-- C5: the claim says (for every `K ≥ 1`, including `K = 1`) a frame moves
from the cold to the warm pool exactly on its K-th recorded access.
Evaluating the source with `K = 1`: the very first access — which is the K-th
— creates the node directly in the cold pool and returns, so the frame sits in
the cold pool with `K` recorded accesses and the warm pool stays empty. -/
theorem claim5_k1_kth_access_not_promoted :
    ((LRUKReplacer.init 2 1).RecordAccess 0).toOption.map
      (fun r => (r.less_k_, r.more_k_,
        (assocLookup r.node_store_ 0).map (fun n => n.history_.length), r.k_)) =
      some ([0], [], some 1, 1) := by
  decide

/-- The operation sequence exhibiting the C6 divergence: create page 0 in the
single-frame pool, unpin it, delete it (whose `Remove` leaves `curr_size_`
stale at 1), then create page 1, which consumes the freed frame and stays
pinned. -/
def claim6Trace : List BPMOp :=
  [.newPage, .unpinPage 0 false, .deletePage 0, .newPage]

/-- C6: the claim says `NewPage` returns null with `page_id = INVALID`
exactly when the free list is empty and the replacer reports no evictable
frame, a non-resident `FetchPage` returns null under the same condition, and
in every other case each returns a non-null frame.  After `claim6Trace`
(`pool_size = 1`, `k = 2`) the free list is empty and no evictable node
exists, but `Size()` still reports `1` (the `Remove` bug of C2); the next
`NewPage` — and a `FetchPage` of a non-resident page — therefore passes the
exhaustion check, finds no frame to hand out, and aborts instead of returning
either null or a frame. -/
theorem claim6_newpage_neither_null_nor_frame :
    ((runBPMs (BufferPoolManager.init 1 2 []) claim6Trace).toOption.map
      (fun b => (b.free_list_, countEvictable b.replacer_.node_store_,
                 b.replacer_.Size)) = some ([], 0, 1)) ∧
    (runBPMs (BufferPoolManager.init 1 2 []) (claim6Trace ++ [.newPage])).isOk
      = false ∧
    ((do
        let b ← runBPMs (BufferPoolManager.init 1 2 []) claim6Trace
        b.FetchPage 99 : Except String (BufferPoolManager × Bool))).isOk
      = false := by
  decide

/-- C10: whenever `UnpinPage` returns `false` the manager state is completely
unchanged — both `false` paths (non-resident id, pin count already zero)
return before any mutation, so in particular a dirty=true argument is not
ORed in and neither pin count nor evictability changes. -/
theorem claim10_unpin_false_no_state_change (b b' : BufferPoolManager)
    (pid : Int) (d : Bool) (h : b.UnpinPage pid d = .ok (b', false)) :
    b' = b := by
  unfold BufferPoolManager.UnpinPage at h
  split at h
  · simpa using h.symm
  · split at h
    · simp at h
    · split at h
      · simpa using h.symm
      · dsimp only at h
        have hbind : ∀ (e : Except String LRUKReplacer)
            (f : LRUKReplacer → BufferPoolManager),
            (e >>= fun rep => Except.ok (f rep, true)) ≠
              (Except.ok (b', false) : Except String (BufferPoolManager × Bool)) := by
          intro e f hc
          cases e with
          | error _ => simp [Bind.bind, Except.bind] at hc
          | ok rep => simp [Bind.bind, Except.bind] at hc
        split at h
        · exact absurd h (hbind _ _)
        · exact absurd h (hbind _ _)

/-- A concrete one-frame manager whose single page is resident with
pin count 0 and a dirty candidate flag, used to instantiate C10. -/
def claim10State : BufferPoolManager :=
  { pool_size_ := 1,
    pages_ := [{ data := [7], page_id_ := 0, pin_count_ := 0, is_dirty_ := false }],
    page_table_ := [(0, 0)],
    free_list_ := [],
    replacer_ := { node_store_ := [(0, { fid_ := 0, history_ := [1], is_evictable_ := true })],
                   less_k_ := [0], more_k_ := [], curr_size_ := 1,
                   current_timestamp_ := 1, replacer_size_ := 1, k_ := 2 },
    next_page_id_ := 1, disk_ := [], writes_ := [], deallocs_ := [] }

/-- Witness for C10: `UnpinPage(0, true)` on a resident page whose pin count
is already zero returns `false` and, by `claim10_unpin_false_no_state_change`,
leaves the state (dirty flag included) untouched. -/
theorem claim10_witness : claim10State = claim10State :=
  claim10_unpin_false_no_state_change claim10State claim10State 0 true (by rfl)

/-- The behaviour C7 claims of `UnpinPage(page_id, is_dirty)`: `false` and no
effect when the page is not resident or the pin count is already zero;
otherwise `true`, the pin count decremented, the dirty flag ORed in, every
other piece of state untouched, and the frame marked evictable in the
replacer exactly when the count reaches zero. -/
def UnpinSpec (b : BufferPoolManager) (pid : Int) (d : Bool) : Prop :=
  (assocLookup b.page_table_ pid = none → b.UnpinPage pid d = .ok (b, false)) ∧
  (∀ fid page, assocLookup b.page_table_ pid = some fid →
    listGet b.pages_ fid = some page →
    (page.pin_count_ = 0 → b.UnpinPage pid d = .ok (b, false)) ∧
    (∀ m, page.pin_count_ = m + 1 →
      ∃ b', b.UnpinPage pid d = .ok (b', true) ∧
        listGet b'.pages_ fid =
          some { page with pin_count_ := m, is_dirty_ := page.is_dirty_ || d } ∧
        (∀ g, g ≠ fid → listGet b'.pages_ g = listGet b.pages_ g) ∧
        b'.page_table_ = b.page_table_ ∧
        b'.free_list_ = b.free_list_ ∧
        b'.disk_ = b.disk_ ∧ b'.writes_ = b.writes_ ∧
        b'.deallocs_ = b.deallocs_ ∧
        (0 < m → b'.replacer_ = b.replacer_) ∧
        (m = 0 → evictableIn b'.replacer_.node_store_ fid = true)))

/-- C7: `UnpinPage(page_id, is_dirty)` returns `false` on a non-resident page
or a zero pin count, and otherwise decrements the pin count, marks the frame
evictable in the replacer exactly when the count reaches zero, ORs
`is_dirty` into the frame's dirty flag, and returns `true`.  The hypothesis
is the manager/replacer well-formedness the source maintains: every resident
frame id is within the replacer's bound and tracked by it. -/
theorem claim7_unpin_semantics (b : BufferPoolManager) (pid : Int) (d : Bool)
    (hwf : ∀ p ∈ b.page_table_, p.2 ≤ b.replacer_.replacer_size_ ∧
      (assocLookup b.replacer_.node_store_ p.2).isSome = true) :
    UnpinSpec b pid d := by
  constructor
  · intro hl
    unfold BufferPoolManager.UnpinPage
    simp [hl]
  · intro fid page hl hg
    obtain ⟨hb, htr⟩ := hwf _ (assocLookup_mem hl)
    have hlen : fid < b.pages_.length := listGet_lt_length hg
    constructor
    · intro hp
      unfold BufferPoolManager.UnpinPage
      simp [hl, hg, hp]
    · intro m hm
      unfold BufferPoolManager.UnpinPage
      simp only [hl, hg]
      rw [if_neg (by omega)]
      by_cases hz : page.pin_count_ - 1 = 0
      · have hm0 : m = 0 := by omega
        subst hm0
        obtain ⟨n, hn⟩ := Option.isSome_iff_exists.mp htr
        obtain ⟨r', hr', hev'⟩ := SetEvictable_true_ok b.replacer_ fid n hb hn
        rw [if_pos hz, hr']
        refine ⟨{ b with replacer_ := r', pages_ := (listSet b.pages_ fid { page with pin_count_ := 0, is_dirty_ := page.is_dirty_ || d }) }, ?_, ?_, ?_, rfl, rfl, rfl, rfl, rfl, ?_, ?_⟩
        · simp [Bind.bind, Except.bind, hz]
        · exact listGet_set_self _ _ _ hlen
        · intro g hgne
          exact listGet_set_ne _ _ _ _ hgne
        · intro hc; exact absurd hc (by omega)
        · intro _; exact hev'
      · have hm1 : page.pin_count_ - 1 = m := by omega
        rw [if_neg hz]
        refine ⟨{ b with pages_ := (listSet b.pages_ fid { page with pin_count_ := m, is_dirty_ := page.is_dirty_ || d }) }, ?_, ?_, ?_, rfl, rfl, rfl, rfl, rfl, ?_, ?_⟩
        · simp [Bind.bind, Except.bind, pure, Except.pure, hm1]
        · exact listGet_set_self _ _ _ hlen
        · intro g hgne
          exact listGet_set_ne _ _ _ _ hgne
        · intro _; rfl
        · intro hc; exact absurd hc (by omega)

/-- A concrete one-frame manager whose single page is resident with pin
count 1 and tracked (non-evictable) by the replacer, used to instantiate C7. -/
def claim7State : BufferPoolManager :=
  { pool_size_ := 1,
    pages_ := [{ data := [3], page_id_ := 0, pin_count_ := 1, is_dirty_ := false }],
    page_table_ := [(0, 0)],
    free_list_ := [],
    replacer_ := { node_store_ := [(0, { fid_ := 0, history_ := [1], is_evictable_ := false })],
                   less_k_ := [0], more_k_ := [], curr_size_ := 0,
                   current_timestamp_ := 1, replacer_size_ := 1, k_ := 2 },
    next_page_id_ := 1, disk_ := [], writes_ := [], deallocs_ := [] }

/-- Witness for C7 at a concrete pinned resident page. -/
theorem claim7_witness : UnpinSpec claim7State 0 true :=
  claim7_unpin_semantics claim7State 0 true (by decide)

/-- The behaviour C8 claims of `DeletePage(page_id)`: `true` on a
non-resident page; `false`, with nothing changed, on a pinned one; otherwise
the page-table entry is erased, the frame leaves the replacer, the frame
joins the free list, the frame metadata is reset to the free state
(`page_id = INVALID`, pin count 0, not dirty), the disk manager is told to
deallocate the page id, and `true` is returned. -/
def DeleteSpec (b : BufferPoolManager) (pid : Int) : Prop :=
  (assocLookup b.page_table_ pid = none → b.DeletePage pid = .ok (b, true)) ∧
  (∀ fid page, assocLookup b.page_table_ pid = some fid →
    listGet b.pages_ fid = some page →
    (0 < page.pin_count_ → b.DeletePage pid = .ok (b, false)) ∧
    (page.pin_count_ = 0 →
      ∃ b', b.DeletePage pid = .ok (b', true) ∧
        assocLookup b'.page_table_ pid = none ∧
        (∀ q, q ≠ pid → assocLookup b'.page_table_ q = assocLookup b.page_table_ q) ∧
        assocLookup b'.replacer_.node_store_ fid = none ∧
        b'.free_list_ = b.free_list_ ++ [fid] ∧
        listGet b'.pages_ fid = some freePage ∧
        b'.deallocs_ = b.deallocs_ ++ [pid]))

/-- C8: `DeletePage` returns `true` when the page is not resident; returns
`false` leaving everything (the page-table entry included) intact when the
frame is pinned; and otherwise erases the page-table entry, removes the frame
from the replacer's tracking, pushes the frame onto the free list, resets the
frame metadata to the free state, issues the advisory deallocation, and
returns `true`.  The hypothesis is the well-formedness the source maintains:
resident frame ids are within the replacer's bound, and any tracked node of a
resident frame whose pin count is zero — pinned frames are tracked
non-evictable — is evictable (so the replacer's `Remove` cannot throw on the
unpinned frame being deleted). -/
theorem claim8_delete_semantics (b : BufferPoolManager) (pid : Int)
    (hwf : ∀ p ∈ b.page_table_, p.2 ≤ b.replacer_.replacer_size_ ∧
      (∀ page, listGet b.pages_ p.2 = some page → page.pin_count_ = 0 →
        evictableIfTracked b.replacer_.node_store_ p.2 = true)) :
    DeleteSpec b pid := by
  constructor
  · intro hl
    unfold BufferPoolManager.DeletePage
    simp [hl]
  · intro fid page hl hg
    obtain ⟨hb, hev⟩ := hwf _ (assocLookup_mem hl)
    have hlen : fid < b.pages_.length := listGet_lt_length hg
    constructor
    · intro hp
      unfold BufferPoolManager.DeletePage
      simp [hl, hg, hp]
    · intro hp
      obtain ⟨rep, hrep, hrepl⟩ := Remove_no_throw b.replacer_ fid hb (hev page hg hp)
      unfold BufferPoolManager.DeletePage
      simp only [hl, hg, hp]
      rw [if_neg (by omega)]
      rw [hrep]
      refine ⟨{ b with page_table_ := assocErase b.page_table_ pid, replacer_ := rep, free_list_ := b.free_list_ ++ [fid], pages_ := listSet b.pages_ fid freePage, deallocs_ := b.deallocs_ ++ [pid] }, ?_, ?_, ?_, hrepl, rfl, ?_, rfl⟩
      · simp [Bind.bind, Except.bind]
      · exact assocLookup_erase_self _ _
      · intro q hq
        exact assocLookup_erase_ne _ _ _ hq
      · exact listGet_set_self _ _ _ hlen

/-- A concrete two-frame manager holding one resident unpinned evictable page
(page 0 in frame 0) and one resident pinned page tracked non-evictable
(page 1 in frame 1), used to instantiate C8 on a reachable-shaped state. -/
def claim8State : BufferPoolManager :=
  { pool_size_ := 2,
    pages_ := [{ data := [5], page_id_ := 0, pin_count_ := 0, is_dirty_ := false },
               { data := [6], page_id_ := 1, pin_count_ := 1, is_dirty_ := false }],
    page_table_ := [(0, 0), (1, 1)],
    free_list_ := [],
    replacer_ := { node_store_ := [(0, { fid_ := 0, history_ := [1], is_evictable_ := true }),
                                   (1, { fid_ := 1, history_ := [2], is_evictable_ := false })],
                   less_k_ := [0, 1], more_k_ := [], curr_size_ := 1,
                   current_timestamp_ := 2, replacer_size_ := 2, k_ := 2 },
    next_page_id_ := 2, disk_ := [], writes_ := [], deallocs_ := [] }

/-- Witness for C8: on a state that also contains a pinned page (tracked
non-evictable), deleting the unpinned page 0 takes the success branch and
deleting the pinned page 1 takes the returns-false branch. -/
theorem claim8_witness : DeleteSpec claim8State 0 ∧ DeleteSpec claim8State 1 :=
  ⟨claim8_delete_semantics claim8State 0 (by decide),
   claim8_delete_semantics claim8State 1 (by decide)⟩

/-- C9: deleting a resident, unpinned page whose frame is dirty never calls
`WritePage`: the `WritePage` log and the disk contents are unchanged, and only
the advisory `DeallocatePage` is issued — the in-memory modifications are
discarded. -/
theorem claim9_delete_discards_dirty_without_write
    (b : BufferPoolManager) (pid : Int) (fid : Nat) (page : Page)
    (hl : assocLookup b.page_table_ pid = some fid)
    (hg : listGet b.pages_ fid = some page)
    (hpin : page.pin_count_ = 0)
    (_hdirty : page.is_dirty_ = true)
    (hb : fid ≤ b.replacer_.replacer_size_)
    (hev : evictableIfTracked b.replacer_.node_store_ fid = true) :
    ∃ b', b.DeletePage pid = .ok (b', true) ∧
      b'.writes_ = b.writes_ ∧ b'.disk_ = b.disk_ ∧
      b'.deallocs_ = b.deallocs_ ++ [pid] := by
  obtain ⟨rep, hrep, -⟩ := Remove_no_throw b.replacer_ fid hb hev
  unfold BufferPoolManager.DeletePage
  simp only [hl, hg, hpin]
  rw [if_neg (by omega)]
  rw [hrep]
  refine ⟨{ b with page_table_ := assocErase b.page_table_ pid, replacer_ := rep, free_list_ := b.free_list_ ++ [fid], pages_ := listSet b.pages_ fid freePage, deallocs_ := b.deallocs_ ++ [pid] }, ?_, rfl, rfl, rfl⟩
  simp [Bind.bind, Except.bind]

/-- A concrete one-frame manager whose single page is resident, unpinned,
dirty and evictable, used to instantiate C9. -/
def claim9State : BufferPoolManager :=
  { pool_size_ := 1,
    pages_ := [{ data := [9], page_id_ := 0, pin_count_ := 0, is_dirty_ := true }],
    page_table_ := [(0, 0)],
    free_list_ := [],
    replacer_ := { node_store_ := [(0, { fid_ := 0, history_ := [1], is_evictable_ := true })],
                   less_k_ := [0], more_k_ := [], curr_size_ := 1,
                   current_timestamp_ := 1, replacer_size_ := 1, k_ := 2 },
    next_page_id_ := 1, disk_ := [], writes_ := [], deallocs_ := [] }

/-- Witness for C9 at a concrete resident dirty unpinned page. -/
theorem claim9_witness :
    ∃ b', claim9State.DeletePage 0 = .ok (b', true) ∧
      b'.writes_ = claim9State.writes_ ∧ b'.disk_ = claim9State.disk_ ∧
      b'.deallocs_ = claim9State.deallocs_ ++ [0] :=
  claim9_delete_discards_dirty_without_write claim9State 0 0
    { data := [9], page_id_ := 0, pin_count_ := 0, is_dirty_ := true }
    (by rfl) (by rfl) rfl rfl (by decide) (by rfl)

theorem evictableIn_true {s : List (Nat × LRUKNode)} {f : Nat}
    (h : evictableIn s f = true) :
    ∃ n, assocLookup s f = some n ∧ n.is_evictable_ = true := by
  unfold evictableIn at h
  cases hn : assocLookup s f with
  | none => rw [hn] at h; simp at h
  | some n => rw [hn] at h; exact ⟨n, rfl, h⟩

theorem Evict_cold (r : LRUKReplacer) (f : Nat)
    (h : evictFrom r.node_store_ r.less_k_ = some f) :
    r.Evict = ({ r with less_k_ := poolRemove r.less_k_ f, node_store_ := assocErase r.node_store_ f, curr_size_ := r.curr_size_ - 1 }, some f) := by
  unfold LRUKReplacer.Evict
  rw [h]

theorem Evict_warm (r : LRUKReplacer) (f : Nat)
    (h0 : evictFrom r.node_store_ r.less_k_ = none)
    (h : evictFrom r.node_store_ r.more_k_ = some f) :
    r.Evict = ({ r with more_k_ := poolRemove r.more_k_ f, node_store_ := assocErase r.node_store_ f, curr_size_ := r.curr_size_ - 1 }, some f) := by
  unfold LRUKReplacer.Evict
  rw [h0, h]

theorem Evict_empty (r : LRUKReplacer)
    (h0 : evictFrom r.node_store_ r.less_k_ = none)
    (h1 : evictFrom r.node_store_ r.more_k_ = none) :
    r.Evict = (r, none) := by
  unfold LRUKReplacer.Evict
  rw [h0, h1]

/-- The behaviour C4 claims of `Evict`, phrased on the outcome
`(r.Evict).2`.  Earliest insertion into the cold pool coincides with the
strictly smallest front-of-history timestamp there (a cold node's history is
never pruned, so its front entry is the timestamp of the access that created
it, and the clock is strictly monotone); the warm victim minimises the
K-th-most-recent-access timestamp `tsOf` among evictable warm nodes. -/
def EvictResultSpec (r r' : LRUKReplacer) (res : Option Nat) : Prop :=
  match res with
  | none =>
      (∀ g ∈ r.less_k_, evictableIn r.node_store_ g = false) ∧
      (∀ g ∈ r.more_k_, evictableIn r.node_store_ g = false) ∧
      r' = r
  | some f =>
      evictableIn r.node_store_ f = true ∧
      ((f ∈ r.less_k_ ∧
          (∀ g ∈ r.less_k_, evictableIn r.node_store_ g = true →
            g = f ∨ tsOf r.node_store_ f < tsOf r.node_store_ g)) ∨
       ((∀ g ∈ r.less_k_, evictableIn r.node_store_ g = false) ∧
          f ∈ r.more_k_ ∧
          (∀ g ∈ r.more_k_, evictableIn r.node_store_ g = true →
            tsOf r.node_store_ f ≤ tsOf r.node_store_ g))) ∧
      f ∉ r'.less_k_ ∧ f ∉ r'.more_k_ ∧
      assocLookup r'.node_store_ f = none ∧
      r'.curr_size_ + 1 = r.curr_size_

/-- C4's claimed behaviour of `Evict` on a state. -/
def EvictSpec (r : LRUKReplacer) : Prop :=
  EvictResultSpec r (r.Evict).1 (r.Evict).2

/-- C4: `Evict` returns the earliest-inserted evictable cold-pool frame when
one exists (the cold frame with the strictly smallest creation timestamp
among evictables), otherwise the evictable warm-pool frame whose K-th most
recent access timestamp is smallest, otherwise none; and the chosen frame is
removed from its pool and from the tracking map with `curr_size_`
decremented by one.  The hypotheses are the invariants `RecordAccess`
maintains on well-formed states: the cold pool strictly ordered by creation
timestamp, the warm pool ordered by K-th-access timestamp, the pools
disjoint, and `curr_size_` equal to the evictable count. -/
theorem claim4_evict_selects_and_removes_victim (r : LRUKReplacer)
    (hL : r.less_k_.Pairwise (fun a b => tsOf r.node_store_ a < tsOf r.node_store_ b))
    (hM : r.more_k_.Pairwise (fun a b => tsOf r.node_store_ a ≤ tsOf r.node_store_ b))
    (hdisj : ∀ f ∈ r.less_k_, f ∉ r.more_k_)
    (hcs : r.curr_size_ = countEvictable r.node_store_) :
    EvictSpec r := by
  cases hless : evictFrom r.node_store_ r.less_k_ with
  | some f =>
    obtain ⟨hmem, hev⟩ := evictFrom_some_spec hless
    obtain ⟨n, hn, hne⟩ := evictableIn_true hev
    have hpos : 0 < r.curr_size_ := hcs ▸ countEvictable_pos hn hne
    rw [EvictSpec, Evict_cold r f hless]
    refine ⟨hev, Or.inl ⟨hmem, fun g hg hgev => evictFrom_min hL hless g hg hgev⟩, ?_, ?_, ?_, ?_⟩
    · intro hc
      exact absurd rfl (mem_poolRemove.mp hc).2
    · exact hdisj f hmem
    · exact assocLookup_erase_self _ _
    · have : r.curr_size_ - 1 + 1 = r.curr_size_ := by omega
      exact this
  | none =>
    cases hmore : evictFrom r.node_store_ r.more_k_ with
    | some f =>
      obtain ⟨hmem, hev⟩ := evictFrom_some_spec hmore
      obtain ⟨n, hn, hne⟩ := evictableIn_true hev
      have hpos : 0 < r.curr_size_ := hcs ▸ countEvictable_pos hn hne
      rw [EvictSpec, Evict_warm r f hless hmore]
      have hcold : ∀ g ∈ r.less_k_, evictableIn r.node_store_ g = false :=
        evictFrom_none_spec hless
      refine ⟨hev, Or.inr ⟨hcold, hmem, ?_⟩, ?_, ?_, ?_, ?_⟩
      · intro g hg hgev
        rcases evictFrom_min hM hmore g hg hgev with h | h
        · rw [h]
        · exact h
      · intro hc
        have := hcold f hc
        rw [hev] at this
        exact absurd this (by simp)
      · intro hc
        exact absurd rfl (mem_poolRemove.mp hc).2
      · exact assocLookup_erase_self _ _
      · have : r.curr_size_ - 1 + 1 = r.curr_size_ := by omega
        exact this
    | none =>
      rw [EvictSpec, Evict_empty r hless hmore]
      exact ⟨evictFrom_none_spec hless, evictFrom_none_spec hmore, rfl⟩

/-- A concrete replacer state — one non-evictable and one evictable cold
node, one evictable warm node — used to instantiate C4. -/
def claim4State : LRUKReplacer :=
  { node_store_ := [(0, { fid_ := 0, history_ := [1], is_evictable_ := false }),
                    (1, { fid_ := 1, history_ := [2], is_evictable_ := true }),
                    (2, { fid_ := 2, history_ := [3, 4], is_evictable_ := true })],
    less_k_ := [0, 1], more_k_ := [2], curr_size_ := 2,
    current_timestamp_ := 4, replacer_size_ := 3, k_ := 2 }

/-- Witness for C4 at a concrete state (it evicts cold frame 1). -/
theorem claim4_witness : EvictSpec claim4State :=
  claim4_evict_selects_and_removes_victim claim4State (by decide) (by decide)
    (by decide) (by decide)

end BusTub
